import Mathlib

/-!
# avalauncher: HTTP routes and Docker label filters

A shallow embedding of `internal/server/routes.go` and
`internal/docker/filters.go`.

* A Go `string` is a Lean `String`.  Go loops that walk `[]byte(s)` are written
  per character: a character outside ASCII is encoded as bytes `>= 0x80`, and
  each such byte takes the same branch (`not a digit, not a sign`) as the
  character does here.  `len(s)` is the UTF-8 byte length.
* Fixed-width integers are `Nat`/`Int` with explicit wrap-around.
* A handler is a function from the server and the request context to an
  `Outcome`: the HTTP response together with the trace of calls made on the
  collaborators (database pool, manager, log stream).
-/

namespace Avalauncher

/-! ## strconv (base 10) -/

/-- The two error values of `strconv.NumError.Err` reachable with base 10. -/
inductive NumErr where
  | ErrSyntax
  | ErrRange
  deriving DecidableEq, Repr

/-- Constant `strconv.IntSize` on a 64-bit target. -/
def intSize : Nat := 64

/-- Constant `maxUint64 = 1<<64 - 1`. -/
def maxUint64 : Nat := 18446744073709551615

/-- Reduction modulo `2^64` (arithmetic of `uint64`). -/
def wrapU64 (n : Nat) : Nat := n % 18446744073709551616

/-- Conversion `int64(x)` of an integer: two's complement wrap-around. -/
def wrapI64 (i : Int) : Int :=
  (i + 9223372036854775808) % 18446744073709551616 - 9223372036854775808

/-- Go `len(s)`. -/
def len (s : String) : Nat := s.utf8ByteSize

/-- The digit switch in the loop of `strconv.ParseUint` (the `'_'` case needs
base 0 and is absent): `'0'..'9'` give `c - '0'`, letters give
`lower(c) - 'a' + 10`, everything else is a syntax error (`none`). -/
def digitOf (c : Char) : Option Nat :=
  if 48 ≤ c.toNat ∧ c.toNat ≤ 57 then some (c.toNat - 48)
  else if 97 ≤ c.toNat ∧ c.toNat ≤ 122 then some (c.toNat - 97 + 10)
  else if 65 ≤ c.toNat ∧ c.toNat ≤ 90 then some (c.toNat + 32 - 97 + 10)
  else none

/-- The `for _, c := range []byte(s)` loop of `strconv.ParseUint`, with the
accumulator `n`. -/
def parseUintLoop (base cutoff maxVal : Nat) : Nat → List Char → Nat × Option NumErr
  | n, [] => (n, none)
  | n, c :: cs =>
    match digitOf c with
    | none => (0, some NumErr.ErrSyntax)
    | some d =>
      if d ≥ base then (0, some NumErr.ErrSyntax)
      else if n ≥ cutoff then (maxVal, some NumErr.ErrRange)
      else
        let n' := wrapU64 (n * base)
        let n1 := wrapU64 (n' + d)
        if n1 < n' ∨ n1 > maxVal then (maxVal, some NumErr.ErrRange)
        else parseUintLoop base cutoff maxVal n1 cs

/-- Function `strconv.ParseUint(s, 10, bitSize)` for `bitSize` in `0..64`
(the only base this repository uses is 10).  Returns Go's pair
`(value, err)`. -/
def ParseUint (s : String) (bitSize : Nat) : Nat × Option NumErr :=
  if s = "" then (0, some NumErr.ErrSyntax)
  else
    let base := 10
    let bitSize := if bitSize = 0 then intSize else bitSize
    let cutoff := maxUint64 / 10 + 1
    let maxVal := wrapU64 (wrapU64 (2 ^ bitSize) + 18446744073709551616 - 1)
    parseUintLoop base cutoff maxVal 0 s.data

/-- Function `strconv.ParseInt(s, 10, bitSize)` for `bitSize` in `0..64`.
Returns Go's pair `(value, err)`. -/
def ParseInt (s : String) (bitSize : Nat) : Int × Option NumErr :=
  match s.data with
  | [] => (0, some NumErr.ErrSyntax)
  | c :: rest =>
    -- pick off leading sign
    let neg : Bool := if c = '+' then false else if c = '-' then true else false
    let s1 : String := if c = '+' then String.mk rest else if c = '-' then String.mk rest else s
    -- convert unsigned and check range
    let r := ParseUint s1 bitSize
    let un := r.1
    if r.2 ≠ none ∧ r.2 ≠ some NumErr.ErrRange then (0, r.2)
    else
      let bitSize := if bitSize = 0 then intSize else bitSize
      let cutoff := wrapU64 (2 ^ (bitSize - 1))
      if neg = false ∧ un ≥ cutoff then ((cutoff : Int) - 1, some NumErr.ErrRange)
      else if neg = true ∧ un > cutoff then (-(cutoff : Int), some NumErr.ErrRange)
      else
        let n := wrapI64 un
        (if neg then wrapI64 (-n) else n, none)

/-- The digit loop of the fast path of `strconv.Atoi`:
`ch -= '0'; if ch > 9 { syntax error }; n = n*10 + int(ch)`. -/
def atoiFastLoop : Int → List Char → Option Int
  | n, [] => some n
  | n, ch :: cs =>
    if 48 ≤ ch.toNat ∧ ch.toNat ≤ 57 then
      atoiFastLoop (wrapI64 (n * 10 + ((ch.toNat - 48 : Nat) : Int))) cs
    else none

/-- Function `strconv.Atoi`.  Returns Go's pair `(value, err)`. -/
def Atoi (s : String) : Int × Option NumErr :=
  let sLen := len s
  if (intSize = 32 ∧ 0 < sLen ∧ sLen < 10) ∨ (intSize = 64 ∧ 0 < sLen ∧ sLen < 19) then
    -- fast path for small integers that fit the int type
    match s.data with
    | [] => (0, some NumErr.ErrSyntax)
    | c :: rest =>
      let signed : Bool := decide (c = '-' ∨ c = '+')
      let digits : List Char := if signed then rest else c :: rest
      if signed = true ∧ digits.length < 1 then (0, some NumErr.ErrSyntax)
      else
        match atoiFastLoop 0 digits with
        | none => (0, some NumErr.ErrSyntax)
        | some n => (if c = '-' then wrapI64 (-n) else n, none)
  else
    -- slow path for invalid or big integers
    let r := ParseInt s 0
    (wrapI64 r.1, r.2)

/-! ## Decimal numerals, as the specification words them -/

/-- An ASCII decimal digit. -/
def isDecDigit (c : Char) : Bool := decide (48 ≤ c.toNat ∧ c.toNat ≤ 57)

/-- Base-10 value of the digit string `cs` read after the prefix value `n`. -/
def decFold (n : Nat) (cs : List Char) : Nat :=
  cs.foldl (fun a c => 10 * a + (c.toNat - 48)) n

/-- Specification of a successful `Atoi`: an optional sign `+` or `-`, then
one or more decimal digits, whose signed base-10 value lies in the range of
`int` (64 bits). -/
def specAtoi (s : String) : Option Int :=
  let neg : Bool := s.data.head? = some '-'
  let digits : List Char :=
    if s.data.head? = some '-' ∨ s.data.head? = some '+' then s.data.tail else s.data
  if digits ≠ [] ∧ digits.all isDecDigit = true then
    let v : Int := if neg then -(decFold 0 digits : Int) else (decFold 0 digits : Int)
    if -9223372036854775808 ≤ v ∧ v ≤ 9223372036854775807 then some v else none
  else none

/-- The signed value the specification assigns to a sign and a digit string. -/
def specValue (neg : Bool) (digits : List Char) : Option Int :=
  if digits ≠ [] ∧ digits.all isDecDigit = true then
    let v : Int := if neg then -(decFold 0 digits : Int) else (decFold 0 digits : Int)
    if -9223372036854775808 ≤ v ∧ v ≤ 9223372036854775807 then some v else none
  else none

/-- The part of `ParseInt` after the sign has been picked off. -/
def parseIntTail (neg : Bool) (s1 : String) (bitSize : Nat) : Int × Option NumErr :=
  let r := ParseUint s1 bitSize
  let un := r.1
  if r.2 ≠ none ∧ r.2 ≠ some NumErr.ErrRange then (0, r.2)
  else
    let bitSize := if bitSize = 0 then intSize else bitSize
    let cutoff := wrapU64 (2 ^ (bitSize - 1))
    if neg = false ∧ un ≥ cutoff then ((cutoff : Int) - 1, some NumErr.ErrRange)
    else if neg = true ∧ un > cutoff then (-(cutoff : Int), some NumErr.ErrRange)
    else
      let n := wrapI64 un
      (if neg then wrapI64 (-n) else n, none)


/-! ## strings, net/http and echo helpers -/

/-- Function `strings.HasPrefix(s, pre)`. -/
def HasPrefix (s pre : String) : Bool := pre.data.isPrefixOf s.data

/-- Function `strings.TrimPrefix(s, pre)`: `s` without the leading `pre` when
`s` starts with it, `s` itself otherwise. -/
def TrimPrefix (s pre : String) : String :=
  if HasPrefix s pre then String.mk (s.data.drop pre.data.length) else s

/-- First value stored under `key`, or `""` when there is none: the behaviour
shared by `http.Header.Get`, `url.Values.Get` and `echo.Context.Param`. -/
def lookupFirst (key : String) : List (String × String) → String
  | [] => ""
  | kv :: rest => if kv.1 = key then kv.2 else lookupFirst key rest

/-- A Go `error` value; `Error` is the string returned by `err.Error()`. -/
structure GoError where
  Error : String
  deriving DecidableEq, Repr

/-! ## Types of package `manager` -/

/-- Modelled from the spec: `manager.Node` is declared outside the given
sources; the fields are the ones `handleStatus` reads. -/
structure Node where
  ID : Int
  Name : String
  Image : String
  NodeID : String
  StakingPort : Int
  Status : String
  deriving DecidableEq, Repr

/-- Modelled from the spec: `manager.NodeSummary`, with the six fields
`handleStatus` fills in. -/
structure NodeSummary where
  ID : Int
  Name : String
  Image : String
  NodeID : String
  StakingPort : Int
  Status : String
  deriving DecidableEq, Repr

/-- Modelled from the spec: `manager.CreateNodeRequest` (name, image and
staking port of the node to create). -/
structure CreateNodeRequest where
  Name : String
  Image : String
  StakingPort : Int
  deriving DecidableEq, Repr

/-- Modelled from the spec: `manager.Event`, the audit record (timestamp,
optional node reference, kind, free-form detail). -/
structure Event where
  Timestamp : Int
  NodeRef : Option Int
  Kind : String
  Detail : String
  deriving DecidableEq, Repr

/-- A finite `io.ReadCloser`: `chunks` are the byte blocks that successive
`Read` calls deliver before `io.EOF`. -/
structure ReadCloser where
  chunks : List (List Nat)
  deriving DecidableEq, Repr

/-- All bytes of the stream, in order. -/
def ReadCloser.bytes (r : ReadCloser) : List Nat := r.chunks.flatten

/-- The operations of `*manager.Manager` that the handlers call.  A Go result
`(v, err)` is an `Except`; a nil slice is `none`. -/
structure Manager where
  CreateNode : CreateNodeRequest → Except GoError Node
  ListNodes : Except GoError (Option (List Node))
  GetNode : Int → Except GoError Node
  StartNode : Int → Option GoError
  StopNode : Int → Option GoError
  DeleteNode : Int → Bool → Option GoError
  NodeLogs : Int → String → Except GoError ReadCloser
  ListEvents : Int → Except GoError (Option (List Event))

/-- The pool behind `s.db.Pool.QueryRow(ctx, sql).Scan(&n)`: the outcome of a
statement may depend on the statements issued before it. -/
structure DB where
  QueryRow : List String → String → Except GoError Int

/-- The fields of `Server` used by the routes, with `config.Version`. -/
structure Server where
  adminKey : String
  Version : String
  db : DB
  mgr : Manager

/-- The request side of `echo.Context`. -/
structure Context where
  header : List (String × String)
  params : List (String × String)
  query : List (String × String)
  bind : Except GoError CreateNodeRequest

/-- Method `c.Request().Header.Get(key)`. -/
def Context.HeaderGet (c : Context) (key : String) : String := lookupFirst key c.header

/-- Method `c.Param(name)`. -/
def Context.Param (c : Context) (name : String) : String := lookupFirst name c.params

/-- Method `c.QueryParam(name)`. -/
def Context.QueryParam (c : Context) (name : String) : String := lookupFirst name c.query

/-! ## Responses and traces -/

/-- A value handed to `c.JSON`. -/
inductive Payload where
  | strMap (kvs : List (String × String))
  | node (n : Node)
  | nodes (ns : List Node)
  | events (es : List Event)
  | status (version : String) (counts : List (String × Int)) (authenticated : Bool)
      (nodes : Option (List NodeSummary))
  deriving DecidableEq, Repr

/-- A response body: the JSON encoding of a payload, or raw bytes. -/
inductive Body where
  | json (v : Payload)
  | bytes (b : List Nat)
  deriving DecidableEq, Repr

/-- What was written to the client. -/
structure Response where
  status : Nat
  contentType : String
  body : Body
  deriving DecidableEq, Repr

/-- A call on the manager. -/
inductive MgrCall where
  | CreateNode (req : CreateNodeRequest)
  | ListNodes
  | GetNode (id : Int)
  | StartNode (id : Int)
  | StopNode (id : Int)
  | DeleteNode (id : Int) (removeVolumes : Bool)
  | NodeLogs (id : Int) (tail : String)
  | ListEvents (limit : Int)
  deriving DecidableEq, Repr

/-- One interaction of a handler with a collaborator; `err` is the error the
collaborator returned (`none` for nil). -/
inductive Effect where
  | query (sql : String) (err : Option GoError)
  | mgr (call : MgrCall) (err : Option GoError)
  | read
  | close
  deriving DecidableEq, Repr

/-- Result of running a handler. -/
structure Outcome where
  response : Response
  trace : List Effect
  deriving DecidableEq, Repr

def StatusOK : Nat := 200
def StatusCreated : Nat := 201
def StatusBadRequest : Nat := 400
def StatusUnauthorized : Nat := 401
def StatusNotFound : Nat := 404
def StatusInternalServerError : Nat := 500

/-- Method `c.JSON(code, v)`. -/
def JSON (code : Nat) (v : Payload) : Response :=
  { status := code, contentType := "application/json; charset=UTF-8", body := Body.json v }

/-- The Go literal `map[string]string{"error": d}`. -/
def errorMap (d : String) : Payload := Payload.strMap [("error", d)]

/-- Function `io.Copy(dst, src)` on a finite stream: every block read is
appended to what was written so far, until `Read` reports `io.EOF`. -/
def ioCopy (dst : List Nat) : List (List Nat) → List Nat × List Effect
  | [] => (dst, [Effect.read])
  | chunk :: rest =>
    let r := ioCopy (dst ++ chunk) rest
    (r.1, Effect.read :: r.2)

/-! ## internal/server/routes.go -/

/-- Method `(*Server).checkBearer`. -/
def checkBearer (s : Server) (c : Context) : Bool :=
  if s.adminKey = "" then false
  else
    let auth := c.HeaderGet "Authorization"
    decide (TrimPrefix auth "Bearer " = s.adminKey)

/-- Method `(*Server).requireBearer`: the middleware of the `/api` group. -/
def requireBearer (s : Server) (next : Context → Outcome) : Context → Outcome :=
  fun c =>
    if !checkBearer s c then
      { response := JSON StatusUnauthorized (Payload.strMap [("error", "unauthorized")]),
        trace := [] }
    else next c

/-- The `for _, t := range tables` loop of `handleStatus`: `issued` are the
statements sent so far, `counts` the map filled so far, `trace` the trace so
far.  Stops at the first failing query. -/
def countTables (db : DB) :
    List String → List String → List (String × Int) → List Effect →
      Except GoError (List (String × Int)) × List Effect
  | [], _, counts, trace => (Except.ok counts, trace)
  | t :: ts, issued, counts, trace =>
    let sql := "SELECT count(*) FROM " ++ t
    match db.QueryRow issued sql with
    | Except.error err => (Except.error err, trace ++ [Effect.query sql (some err)])
    | Except.ok n =>
      countTables db ts (issued ++ [sql]) (counts ++ [(t, n)])
        (trace ++ [Effect.query sql none])

/-- The `NodeSummary` literal built in `handleStatus`. -/
def summaryOf (n : Node) : NodeSummary :=
  { ID := n.ID, Name := n.Name, Image := n.Image, NodeID := n.NodeID,
    StakingPort := n.StakingPort, Status := n.Status }

/-- Method `(*Server).handleStatus`. -/
def handleStatus (s : Server) (c : Context) : Outcome :=
  let authenticated := checkBearer s c
  let tables := ["hosts", "nodes", "l1s", "events"]
  match countTables s.db tables [] [] [] with
  | (Except.error err, trace) =>
    { response := JSON StatusInternalServerError (errorMap err.Error), trace := trace }
  | (Except.ok counts, trace) =>
    if authenticated then
      match s.mgr.ListNodes with
      | Except.ok nodes =>
        { response := JSON StatusOK
            (Payload.status s.Version counts true (some ((nodes.getD []).map summaryOf))),
          trace := trace ++ [Effect.mgr MgrCall.ListNodes none] }
      | Except.error err =>
        { response := JSON StatusOK (Payload.status s.Version counts true none),
          trace := trace ++ [Effect.mgr MgrCall.ListNodes (some err)] }
    else
      { response := JSON StatusOK (Payload.status s.Version counts false none),
        trace := trace }

/-- Method `(*Server).handleCreateNode`. -/
def handleCreateNode (s : Server) (c : Context) : Outcome :=
  match c.bind with
  | Except.error _ =>
    { response := JSON StatusBadRequest (errorMap "invalid request body"), trace := [] }
  | Except.ok req =>
    match s.mgr.CreateNode req with
    | Except.error err =>
      { response := JSON StatusBadRequest (errorMap err.Error),
        trace := [Effect.mgr (MgrCall.CreateNode req) (some err)] }
    | Except.ok node =>
      { response := JSON StatusCreated (Payload.node node),
        trace := [Effect.mgr (MgrCall.CreateNode req) none] }

/-- Method `(*Server).handleListNodes`. -/
def handleListNodes (s : Server) (_c : Context) : Outcome :=
  match s.mgr.ListNodes with
  | Except.error err =>
    { response := JSON StatusInternalServerError (errorMap err.Error),
      trace := [Effect.mgr MgrCall.ListNodes (some err)] }
  | Except.ok nodes =>
    let nodes := match nodes with
      | none => []
      | some ns => ns
    { response := JSON StatusOK (Payload.nodes nodes),
      trace := [Effect.mgr MgrCall.ListNodes none] }

/-- Method `(*Server).handleGetNode`. -/
def handleGetNode (s : Server) (c : Context) : Outcome :=
  let r := ParseInt (c.Param "id") 64
  if r.2 ≠ none then
    { response := JSON StatusBadRequest (errorMap "invalid id"), trace := [] }
  else
    let id := r.1
    match s.mgr.GetNode id with
    | Except.error err =>
      { response := JSON StatusNotFound (errorMap "node not found"),
        trace := [Effect.mgr (MgrCall.GetNode id) (some err)] }
    | Except.ok node =>
      { response := JSON StatusOK (Payload.node node),
        trace := [Effect.mgr (MgrCall.GetNode id) none] }

/-- Method `(*Server).handleStartNode`. -/
def handleStartNode (s : Server) (c : Context) : Outcome :=
  let r := ParseInt (c.Param "id") 64
  if r.2 ≠ none then
    { response := JSON StatusBadRequest (errorMap "invalid id"), trace := [] }
  else
    let id := r.1
    match s.mgr.StartNode id with
    | some err =>
      { response := JSON StatusBadRequest (errorMap err.Error),
        trace := [Effect.mgr (MgrCall.StartNode id) (some err)] }
    | none =>
      { response := JSON StatusOK (Payload.strMap [("status", "started")]),
        trace := [Effect.mgr (MgrCall.StartNode id) none] }

/-- Method `(*Server).handleStopNode`. -/
def handleStopNode (s : Server) (c : Context) : Outcome :=
  let r := ParseInt (c.Param "id") 64
  if r.2 ≠ none then
    { response := JSON StatusBadRequest (errorMap "invalid id"), trace := [] }
  else
    let id := r.1
    match s.mgr.StopNode id with
    | some err =>
      { response := JSON StatusBadRequest (errorMap err.Error),
        trace := [Effect.mgr (MgrCall.StopNode id) (some err)] }
    | none =>
      { response := JSON StatusOK (Payload.strMap [("status", "stopped")]),
        trace := [Effect.mgr (MgrCall.StopNode id) none] }

/-- Method `(*Server).handleDeleteNode`. -/
def handleDeleteNode (s : Server) (c : Context) : Outcome :=
  let r := ParseInt (c.Param "id") 64
  if r.2 ≠ none then
    { response := JSON StatusBadRequest (errorMap "invalid id"), trace := [] }
  else
    let id := r.1
    let removeVolumes : Bool := decide (c.QueryParam "remove_volumes" = "true")
    match s.mgr.DeleteNode id removeVolumes with
    | some err =>
      { response := JSON StatusBadRequest (errorMap err.Error),
        trace := [Effect.mgr (MgrCall.DeleteNode id removeVolumes) (some err)] }
    | none =>
      { response := JSON StatusOK (Payload.strMap [("status", "deleted")]),
        trace := [Effect.mgr (MgrCall.DeleteNode id removeVolumes) none] }

/-- Method `(*Server).handleNodeLogs`.  The deferred `reader.Close()` runs
last. -/
def handleNodeLogs (s : Server) (c : Context) : Outcome :=
  let r := ParseInt (c.Param "id") 64
  if r.2 ≠ none then
    { response := JSON StatusBadRequest (errorMap "invalid id"), trace := [] }
  else
    let id := r.1
    let tail := c.QueryParam "tail"
    match s.mgr.NodeLogs id tail with
    | Except.error err =>
      { response := JSON StatusBadRequest (errorMap err.Error),
        trace := [Effect.mgr (MgrCall.NodeLogs id tail) (some err)] }
    | Except.ok reader =>
      let copied := ioCopy [] reader.chunks
      { response :=
          { status := StatusOK, contentType := "text/plain; charset=utf-8",
            body := Body.bytes copied.1 },
        trace := [Effect.mgr (MgrCall.NodeLogs id tail) none] ++ copied.2 ++ [Effect.close] }

/-- Method `(*Server).handleListEvents`. -/
def handleListEvents (s : Server) (c : Context) : Outcome :=
  let limit : Int :=
    let l := c.QueryParam "limit"
    if l ≠ "" then
      let r := Atoi l
      if r.2 = none ∧ r.1 > 0 then r.1 else 50
    else 50
  match s.mgr.ListEvents limit with
  | Except.error err =>
    { response := JSON StatusInternalServerError (errorMap err.Error),
      trace := [Effect.mgr (MgrCall.ListEvents limit) (some err)] }
  | Except.ok events =>
    let events := match events with
      | none => []
      | some es => es
    { response := JSON StatusOK (Payload.events events),
      trace := [Effect.mgr (MgrCall.ListEvents limit) none] }

/-- The routes that `routes()` registers on the group
`s.echo.Group("/api", s.requireBearer)`. -/
inductive ApiRoute where
  | createNode
  | listNodes
  | getNode
  | startNode
  | stopNode
  | deleteNode
  | nodeLogs
  | listEvents
  deriving DecidableEq, Repr

/-- HTTP method and path pattern of a group route. -/
def ApiRoute.pattern : ApiRoute → String × String
  | ApiRoute.createNode => ("POST", "/api/nodes")
  | ApiRoute.listNodes => ("GET", "/api/nodes")
  | ApiRoute.getNode => ("GET", "/api/nodes/:id")
  | ApiRoute.startNode => ("POST", "/api/nodes/:id/start")
  | ApiRoute.stopNode => ("POST", "/api/nodes/:id/stop")
  | ApiRoute.deleteNode => ("DELETE", "/api/nodes/:id")
  | ApiRoute.nodeLogs => ("GET", "/api/nodes/:id/logs")
  | ApiRoute.listEvents => ("GET", "/api/events")

/-- The handler registered for a group route. -/
def ApiRoute.handler (s : Server) : ApiRoute → Context → Outcome
  | ApiRoute.createNode => handleCreateNode s
  | ApiRoute.listNodes => handleListNodes s
  | ApiRoute.getNode => handleGetNode s
  | ApiRoute.startNode => handleStartNode s
  | ApiRoute.stopNode => handleStopNode s
  | ApiRoute.deleteNode => handleDeleteNode s
  | ApiRoute.nodeLogs => handleNodeLogs s
  | ApiRoute.listEvents => handleListEvents s

/-- Serving a request that echo matched to the group route `r`: the group
middleware wraps the handler. -/
def serveApi (s : Server) (r : ApiRoute) (c : Context) : Outcome :=
  requireBearer s (r.handler s) c

/-! ## internal/docker/filters.go -/

/-- Type `filters.Args` of the Docker API: `map[string]map[string]bool`, as a
list of fields, each with the list of its entries. -/
structure Args where
  fields : List (String × List String)
  deriving DecidableEq, Repr

/-- Function `filters.NewArgs()`. -/
def NewArgs : Args := { fields := [] }

/-- Insertion of `value` into the entry set of field `key`. -/
def addField (key value : String) : List (String × List String) → List (String × List String)
  | [] => [(key, [value])]
  | kv :: rest =>
    if kv.1 = key then (kv.1, if value ∈ kv.2 then kv.2 else kv.2 ++ [value]) :: rest
    else kv :: addField key value rest

/-- Method `filters.Args.Add(key, value)`. -/
def Args.Add (a : Args) (key value : String) : Args := { fields := addField key value a.fields }

/-- Whether the entry `value` is stored under field `key`
(`args.fields[key][value]`). -/
def Args.has (a : Args) (key value : String) : Bool :=
  a.fields.any (fun kv => decide (kv.1 = key) && decide (value ∈ kv.2))

/-- Function `newFilterArgs`. -/
def newFilterArgs (key value : String) : Args :=
  let f := NewArgs
  let f := f.Add "label" (key ++ "=" ++ value)
  f

/-! ## Limit of `ListEvents`, as the specification words it -/

/-- Specification of the limit handed to `ListEvents`: the value `n` of the
`limit` parameter when it is non-empty and a decimal numeral of an `n > 0`,
and 50 in every other case. -/
def specLimit (l : String) : Int :=
  if l ≠ "" then
    match specAtoi l with
    | some n => if n > 0 then n else 50
    | none => 50
  else 50

/-- The fixed list of statements of `handleStatus`. -/
def statusQueries : List String :=
  ["SELECT count(*) FROM hosts", "SELECT count(*) FROM nodes",
   "SELECT count(*) FROM l1s", "SELECT count(*) FROM events"]

/-- The `(statement, error)` pairs of the database queries in a trace. -/
def queriesOf : List Effect → List (String × Option GoError)
  | [] => []
  | Effect.query sql err :: rest => (sql, err) :: queriesOf rest
  | _ :: rest => queriesOf rest

/-- The failed manager calls in a trace, with the error each returned. -/
def mgrFailures : List Effect → List (MgrCall × GoError)
  | [] => []
  | Effect.mgr call (some err) :: rest => (call, err) :: mgrFailures rest
  | _ :: rest => mgrFailures rest

/-- The manager calls in a trace. -/
def mgrCalls : List Effect → List MgrCall
  | [] => []
  | Effect.mgr call _ :: rest => call :: mgrCalls rest
  | _ :: rest => mgrCalls rest

/-- The error component of a Go result `(v, err)`. -/
def errOf {α : Type} : Except GoError α → Option GoError
  | Except.error err => some err
  | Except.ok _ => none

/-! ## Concrete servers and requests for the worked instances -/

/-- A manager whose operations all succeed. -/
def exampleManager : Manager :=
  { CreateNode := fun req =>
      Except.ok { ID := 1, Name := req.Name, Image := req.Image, NodeID := "",
                  StakingPort := req.StakingPort, Status := "created" }
    ListNodes := Except.ok none
    GetNode := fun id =>
      Except.ok { ID := id, Name := "val-1", Image := "avax:latest", NodeID := "",
                  StakingPort := 9651, Status := "created" }
    StartNode := fun _ => none
    StopNode := fun _ => none
    DeleteNode := fun _ _ => none
    NodeLogs := fun _ _ => Except.ok { chunks := [[104, 105], [], [10]] }
    ListEvents := fun _ => Except.ok none }

/-- A manager whose operations all fail with the detail string `d`. -/
def brokenManager (d : String) : Manager :=
  { CreateNode := fun _ => Except.error { Error := d }
    ListNodes := Except.error { Error := d }
    GetNode := fun _ => Except.error { Error := d }
    StartNode := fun _ => some { Error := d }
    StopNode := fun _ => some { Error := d }
    DeleteNode := fun _ _ => some { Error := d }
    NodeLogs := fun _ _ => Except.error { Error := d }
    ListEvents := fun _ => Except.error { Error := d } }

/-- A database in which every table is empty. -/
def exampleDB : DB := { QueryRow := fun _ _ => Except.ok 0 }

/-- A server with admin key `key` and manager `m`. -/
def exampleServer (key : String) (m : Manager) : Server :=
  { adminKey := key, Version := "dev", db := exampleDB, mgr := m }

/-- A request with the given `Authorization` header, `:id` path parameter and
query string. -/
def exampleContext (auth id : String) (query : List (String × String)) : Context :=
  { header := [("Authorization", auth)], params := [("id", id)], query := query,
    bind := Except.ok { Name := "val-1", Image := "avax:latest", StakingPort := 9651 } }

/-! ## Correctness of the strconv model against the decimal specification -/

theorem decFold_nil (n : Nat) : decFold n [] = n := rfl

theorem decFold_cons (n : Nat) (c : Char) (cs : List Char) :
    decFold n (c :: cs) = decFold (10 * n + (c.toNat - 48)) cs := rfl

theorem le_decFold (cs : List Char) : ∀ n, n ≤ decFold n cs := by
  induction cs with
  | nil => intro n; simp [decFold_nil]
  | cons c cs ih =>
    intro n
    rw [decFold_cons]
    exact le_trans (by omega) (ih _)

theorem decFold_lt_pow (cs : List Char) :
    ∀ n, cs.all isDecDigit = true → decFold n cs < (n + 1) * 10 ^ cs.length := by
  induction cs with
  | nil => intro n _; simp [decFold_nil]
  | cons c cs ih =>
    intro n h
    simp only [List.all_cons, Bool.and_eq_true] at h
    have hc : c.toNat - 48 ≤ 9 := by
      have := h.1
      simp only [isDecDigit, decide_eq_true_eq] at this
      omega
    rw [decFold_cons]
    calc decFold (10 * n + (c.toNat - 48)) cs
        < (10 * n + (c.toNat - 48) + 1) * 10 ^ cs.length := ih _ h.2
      _ ≤ ((n + 1) * 10) * 10 ^ cs.length := Nat.mul_le_mul_right _ (by omega)
      _ = (n + 1) * 10 ^ (c :: cs).length := by
          rw [List.length_cons, pow_succ]; ring

theorem digitOf_of_digit (c : Char) (h : isDecDigit c = true) :
    digitOf c = some (c.toNat - 48) := by
  simp only [isDecDigit, decide_eq_true_eq] at h
  simp [digitOf, h]

theorem digitOf_of_not_digit (c : Char) (h : isDecDigit c = false) :
    digitOf c = none ∨ ∃ d, 10 ≤ d ∧ digitOf c = some d := by
  simp only [isDecDigit, decide_eq_false_iff_not] at h
  unfold digitOf
  rw [if_neg h]
  split
  · exact Or.inr ⟨_, by omega, rfl⟩
  · split
    · exact Or.inr ⟨_, by omega, rfl⟩
    · exact Or.inl rfl

theorem parseUintLoop_ok_iff (cs : List Char) :
    ∀ n v, n ≤ maxUint64 →
      (parseUintLoop 10 1844674407370955162 maxUint64 n cs = (v, none) ↔
        (cs.all isDecDigit = true ∧ decFold n cs ≤ maxUint64 ∧ v = decFold n cs)) := by
  induction cs with
  | nil =>
    intro n v hn
    simp only [parseUintLoop, List.all_nil, decFold_nil, Prod.mk.injEq, and_true, true_and]
    constructor
    · intro h; exact ⟨hn, h.symm⟩
    · intro h; exact h.2.symm
  | cons c cs ih =>
    intro n v hn
    rw [decFold_cons, List.all_cons]
    cases hc : isDecDigit c with
    | false =>
      have hl : parseUintLoop 10 1844674407370955162 maxUint64 n (c :: cs)
          = (0, some NumErr.ErrSyntax) := by
        rcases digitOf_of_not_digit c hc with h | ⟨d, hd, h⟩
        · simp [parseUintLoop, h]
        · simp [parseUintLoop, h, hd]
      simp [hl]
    | true =>
      have hd := digitOf_of_digit c hc
      have hc9 : c.toNat - 48 ≤ 9 := by
        simp only [isDecDigit, decide_eq_true_eq] at hc; omega
      have hmono := le_decFold cs (10 * n + (c.toNat - 48))
      simp only [parseUintLoop, hd, Bool.true_and]
      have h10 : ¬ (c.toNat - 48 ≥ 10) := by omega
      rw [if_neg h10]
      by_cases hcut : n ≥ 1844674407370955162
      · rw [if_pos hcut]
        simp only [maxUint64] at hmono hn ⊢
        constructor
        · intro h; simp at h
        · intro h; omega
      · rw [if_neg hcut]
        simp only [wrapU64, maxUint64] at hmono hn ⊢
        have e1 : n * 10 % 18446744073709551616 = n * 10 := Nat.mod_eq_of_lt (by omega)
        rw [e1]
        by_cases hov : n * 10 + (c.toNat - 48) < 18446744073709551616
        · have e2 : (n * 10 + (c.toNat - 48)) % 18446744073709551616
              = n * 10 + (c.toNat - 48) := Nat.mod_eq_of_lt hov
          rw [e2]
          have hno : ¬ (n * 10 + (c.toNat - 48) < n * 10 ∨
              n * 10 + (c.toNat - 48) > 18446744073709551615) := by omega
          rw [if_neg hno]
          have := ih (n * 10 + (c.toNat - 48)) v (by simp only [maxUint64]; omega)
          simp only [maxUint64] at this
          rw [this, Nat.mul_comm n 10]
        · have hyes : ((n * 10 + (c.toNat - 48)) % 18446744073709551616 < n * 10 ∨
              (n * 10 + (c.toNat - 48)) % 18446744073709551616 > 18446744073709551615) := by
            omega
          rw [if_pos hyes]
          constructor
          · intro h; simp at h
          · intro h; omega

theorem parseUintLoop_range (base cutoff maxVal : Nat) (cs : List Char) :
    ∀ n u, parseUintLoop base cutoff maxVal n cs = (u, some NumErr.ErrRange) → u = maxVal := by
  induction cs with
  | nil => intro n u h; simp [parseUintLoop] at h
  | cons c cs ih =>
    intro n u h
    unfold parseUintLoop at h
    split at h
    · simp at h
    · split at h
      · simp at h
      · split at h
        · simp only [Prod.mk.injEq, and_true] at h; exact h.symm
        · simp only at h
          split at h
          · simp only [Prod.mk.injEq, and_true] at h; exact h.symm
          · exact ih _ _ h

theorem eq_empty_iff (s : String) : s = "" ↔ s.data = [] := by
  constructor
  · intro h; rw [h]
  · intro h; exact String.ext h

theorem maxVal_64 : wrapU64 (wrapU64 (2 ^ 64) + 18446744073709551616 - 1) = maxUint64 := by
  decide

theorem cutoff_10 : maxUint64 / 10 + 1 = 1844674407370955162 := by decide

theorem bitSize_norm (b : Nat) (hb : b = 0 ∨ b = 64) : (if b = 0 then intSize else b) = 64 := by
  rcases hb with h | h <;> simp [h, intSize]

theorem ParseUint_ok_iff (s : String) (b : Nat) (hb : b = 0 ∨ b = 64) (v : Nat) :
    ParseUint s b = (v, none) ↔
      (s.data ≠ [] ∧ s.data.all isDecDigit = true ∧ decFold 0 s.data ≤ maxUint64
        ∧ v = decFold 0 s.data) := by
  unfold ParseUint
  by_cases he : s = ""
  · rw [if_pos he]
    have : s.data = [] := (eq_empty_iff s).1 he
    simp [this]
  · rw [if_neg he]
    have hne : s.data ≠ [] := fun h => he ((eq_empty_iff s).2 h)
    simp only [bitSize_norm b hb, maxVal_64, cutoff_10]
    rw [parseUintLoop_ok_iff s.data 0 v (Nat.zero_le _)]
    simp [hne]

theorem ParseUint_range (s : String) (b : Nat) (hb : b = 0 ∨ b = 64) (u : Nat)
    (h : ParseUint s b = (u, some NumErr.ErrRange)) : u = maxUint64 := by
  unfold ParseUint at h
  by_cases he : s = ""
  · rw [if_pos he] at h; simp at h
  · rw [if_neg he] at h
    simp only [bitSize_norm b hb, maxVal_64, cutoff_10] at h
    exact parseUintLoop_range _ _ _ _ _ _ h

theorem specAtoi_nil (s : String) (h : s.data = []) : specAtoi s = none := by
  simp [specAtoi, h]

theorem specAtoi_cons (s : String) (c : Char) (rest : List Char) (h : s.data = c :: rest) :
    specAtoi s =
      if c = '-' then specValue true rest
      else if c = '+' then specValue false rest
      else specValue false (c :: rest) := by
  unfold specAtoi specValue
  rw [h]
  by_cases h1 : c = '-'
  · subst h1; simp
  · by_cases h2 : c = '+'
    · subst h2; simp
    · simp [h1, h2]

theorem ParseInt_cons (s : String) (b : Nat) (c : Char) (rest : List Char)
    (h : s.data = c :: rest) :
    ParseInt s b =
      parseIntTail (if c = '+' then false else if c = '-' then true else false)
        (if c = '+' then String.mk rest else if c = '-' then String.mk rest else s) b := by
  unfold ParseInt
  rw [h]
  rfl

theorem cutoff_63 : wrapU64 (2 ^ (64 - 1)) = 9223372036854775808 := by decide

theorem parseIntTail_ok_iff (neg : Bool) (s1 : String) (b : Nat) (hb : b = 0 ∨ b = 64)
    (n : Int) :
    parseIntTail neg s1 b = (n, none) ↔ specValue neg s1.data = some n := by
  unfold parseIntTail specValue
  simp only [bitSize_norm b hb, cutoff_63]
  rcases hr : ParseUint s1 b with ⟨un, err⟩
  cases err with
  | none =>
    have hu := (ParseUint_ok_iff s1 b hb un).1 hr
    obtain ⟨h1, h2, h3, h4⟩ := hu
    simp only [maxUint64] at h3
    have hcond : s1.data ≠ [] ∧ s1.data.all isDecDigit = true := ⟨h1, h2⟩
    rw [if_pos hcond]
    simp only [ne_eq, not_true_eq_false, false_and, if_false]
    rw [← h4]
    cases neg with
    | false =>
      simp only [true_and, Bool.false_eq_true, false_and, if_false]
      by_cases hc : un ≥ 9223372036854775808
      · rw [if_pos hc]
        have : ¬ ((-9223372036854775808 : Int) ≤ (un : Int) ∧ (un : Int) ≤ 9223372036854775807) := by
          omega
        rw [if_neg this]
        simp
      · rw [if_neg hc]
        have : ((-9223372036854775808 : Int) ≤ (un : Int) ∧ (un : Int) ≤ 9223372036854775807) := by
          omega
        rw [if_pos this]
        have hw : wrapI64 (un : Int) = (un : Int) := by unfold wrapI64; omega
        simp only [Prod.mk.injEq, and_true, Option.some.injEq, hw]
    | true =>
      simp only [Bool.true_eq_false, false_and, if_false, true_and, if_true]
      by_cases hc : un > 9223372036854775808
      · rw [if_pos hc]
        have : ¬ ((-9223372036854775808 : Int) ≤ -(un : Int) ∧ -(un : Int) ≤ 9223372036854775807) := by
          omega
        rw [if_neg this]
        simp
      · rw [if_neg hc]
        have : ((-9223372036854775808 : Int) ≤ -(un : Int) ∧ -(un : Int) ≤ 9223372036854775807) := by
          omega
        rw [if_pos this]
        have hw : wrapI64 (-wrapI64 (un : Int)) = -(un : Int) := by unfold wrapI64; omega
        simp only [Prod.mk.injEq, and_true, Option.some.injEq, hw]
  | some e =>
    -- the unsigned conversion failed: no decimal value in range exists
    have hnot : ∀ v, ¬ (s1.data ≠ [] ∧ s1.data.all isDecDigit = true
        ∧ decFold 0 s1.data ≤ maxUint64 ∧ v = decFold 0 s1.data) := by
      intro v hv
      have := (ParseUint_ok_iff s1 b hb v).2 hv
      rw [hr] at this
      simp at this
    have hspec : (if s1.data ≠ [] ∧ s1.data.all isDecDigit = true then
          (if (-9223372036854775808 : Int) ≤ (if neg = true then -(decFold 0 s1.data : Int)
                else (decFold 0 s1.data : Int)) ∧
              (if neg = true then -(decFold 0 s1.data : Int) else (decFold 0 s1.data : Int))
                ≤ 9223372036854775807
            then some (if neg = true then -(decFold 0 s1.data : Int)
                else (decFold 0 s1.data : Int)) else none)
        else none) = (none : Option Int) := by
      by_cases hcond : s1.data ≠ [] ∧ s1.data.all isDecDigit = true
      · rw [if_pos hcond]
        have hbig : ¬ decFold 0 s1.data ≤ maxUint64 := fun hle =>
          hnot _ ⟨hcond.1, hcond.2, hle, rfl⟩
        simp only [maxUint64] at hbig
        cases neg <;> simp <;> omega
      · rw [if_neg hcond]
    simp only at hspec ⊢
    rw [hspec]
    cases e with
    | ErrSyntax => simp
    | ErrRange =>
      have hmax := ParseUint_range s1 b hb un hr
      simp only [maxUint64] at hmax
      subst hmax
      cases neg <;> simp

theorem ParseInt_ok_iff (s : String) (b : Nat) (hb : b = 0 ∨ b = 64) (n : Int) :
    ParseInt s b = (n, none) ↔ specAtoi s = some n := by
  cases hd : s.data with
  | nil =>
    rw [specAtoi_nil s hd]
    unfold ParseInt
    rw [hd]
    simp
  | cons c rest =>
    rw [ParseInt_cons s b c rest hd, specAtoi_cons s c rest hd, parseIntTail_ok_iff _ _ _ hb]
    by_cases h1 : c = '+'
    · subst h1; simp
    · by_cases h2 : c = '-'
      · subst h2; simp
      · simp [h1, h2, hd]

theorem atoiFastLoop_none (cs : List Char) :
    ∀ n : Int, cs.all isDecDigit = false → atoiFastLoop n cs = none := by
  induction cs with
  | nil => intro n h; simp at h
  | cons c cs ih =>
    intro n h
    unfold atoiFastLoop
    by_cases hc : 48 ≤ c.toNat ∧ c.toNat ≤ 57
    · rw [if_pos hc]
      apply ih
      have hd : isDecDigit c = true := by simp [isDecDigit, hc]
      rw [List.all_cons, hd, Bool.true_and] at h
      exact h
    · rw [if_neg hc]

theorem atoiFastLoop_some (cs : List Char) :
    ∀ n : Nat, cs.all isDecDigit = true → decFold n cs < 9223372036854775808 →
      atoiFastLoop (n : Int) cs = some ((decFold n cs : Nat) : Int) := by
  induction cs with
  | nil => intro n _ _; simp [atoiFastLoop, decFold_nil]
  | cons c cs ih =>
    intro n h hlt
    rw [List.all_cons, Bool.and_eq_true] at h
    have hc : 48 ≤ c.toNat ∧ c.toNat ≤ 57 := by
      have := h.1
      simp only [isDecDigit, decide_eq_true_eq] at this
      exact this
    rw [decFold_cons] at hlt ⊢
    have hmono := le_decFold cs (10 * n + (c.toNat - 48))
    unfold atoiFastLoop
    rw [if_pos hc]
    have hw : wrapI64 ((n : Int) * 10 + ((c.toNat - 48 : Nat) : Int))
        = ((10 * n + (c.toNat - 48) : Nat) : Int) := by
      unfold wrapI64
      push_cast
      omega
    rw [hw]
    exact ih _ h.2 hlt

theorem length_le_utf8Len (cs : List Char) : cs.length ≤ String.utf8Len cs := by
  induction cs with
  | nil => simp
  | cons c cs ih =>
    have := Char.utf8Size_pos c
    simp only [List.length_cons, String.utf8Len_cons]
    omega

theorem decFold_small (cs : List Char) (hall : cs.all isDecDigit = true)
    (hlen : cs.length ≤ 18) : decFold 0 cs < 1000000000000000000 := by
  have h1 := decFold_lt_pow cs 0 hall
  have h2 : 10 ^ cs.length ≤ 10 ^ 18 := Nat.pow_le_pow_right (by decide) hlen
  have h3 : (10 : Nat) ^ 18 = 1000000000000000000 := by norm_num
  omega

/-- The fast path of `Atoi` on a sign flag and the digits that follow it. -/
theorem atoiFast_ok_iff (neg : Bool) (ds : List Char) (hlen : ds.length ≤ 18) (n : Int) :
    (match atoiFastLoop 0 ds with
      | none => ((0 : Int), some NumErr.ErrSyntax)
      | some m => (if neg = true then wrapI64 (-m) else m, none)) = (n, none)
      ↔ (ds.all isDecDigit = true ∧
          n = if neg = true then -((decFold 0 ds : Nat) : Int) else ((decFold 0 ds : Nat) : Int)) := by
  cases hall : ds.all isDecDigit with
  | false =>
    rw [atoiFastLoop_none ds 0 hall]
    simp
  | true =>
    have hsmall := decFold_small ds hall hlen
    have := atoiFastLoop_some ds 0 hall (by omega)
    simp only [Nat.cast_zero] at this
    rw [this]
    cases neg with
    | false => simp [eq_comm]
    | true =>
      have hw : wrapI64 (-((decFold 0 ds : Nat) : Int)) = -((decFold 0 ds : Nat) : Int) := by
        unfold wrapI64; omega
      simp [hw, eq_comm]

theorem specValue_small (neg : Bool) (ds : List Char) (hlen : ds.length ≤ 18) (n : Int) :
    specValue neg ds = some n ↔
      (ds ≠ [] ∧ ds.all isDecDigit = true ∧
        n = if neg = true then -((decFold 0 ds : Nat) : Int) else ((decFold 0 ds : Nat) : Int)) := by
  unfold specValue
  by_cases hcond : ds ≠ [] ∧ ds.all isDecDigit = true
  · rw [if_pos hcond]
    have hsmall := decFold_small ds hcond.2 hlen
    have hr : (-9223372036854775808 : Int) ≤
          (if neg = true then -((decFold 0 ds : Nat) : Int) else ((decFold 0 ds : Nat) : Int)) ∧
        (if neg = true then -((decFold 0 ds : Nat) : Int) else ((decFold 0 ds : Nat) : Int))
          ≤ 9223372036854775807 := by
      cases neg <;> simp <;> omega
    simp only [hr, and_self, if_true, Option.some.injEq]
    constructor
    · intro h; exact ⟨hcond.1, hcond.2, h.symm⟩
    · intro h; exact h.2.2.symm
  · rw [if_neg hcond]
    constructor
    · intro h; simp at h
    · intro h; exact absurd ⟨h.1, h.2.1⟩ hcond

theorem specValue_range (neg : Bool) (ds : List Char) (n : Int)
    (h : specValue neg ds = some n) :
    -9223372036854775808 ≤ n ∧ n ≤ 9223372036854775807 := by
  unfold specValue at h
  by_cases hc : ds ≠ [] ∧ ds.all isDecDigit = true
  · rw [if_pos hc] at h
    cases neg <;> simp at h <;> omega
  · rw [if_neg hc] at h
    simp at h

theorem specAtoi_range (s : String) (n : Int) (h : specAtoi s = some n) :
    -9223372036854775808 ≤ n ∧ n ≤ 9223372036854775807 := by
  cases hd : s.data with
  | nil => rw [specAtoi_nil s hd] at h; simp at h
  | cons c rest =>
    rw [specAtoi_cons s c rest hd] at h
    split at h
    · exact specValue_range _ _ _ h
    · split at h
      · exact specValue_range _ _ _ h
      · exact specValue_range _ _ _ h

/-- Refinement: `Atoi` succeeds with `n` exactly when the string is a decimal
numeral (optional sign, digits, in the range of `int`) of value `n`. -/
theorem Atoi_ok_iff (s : String) (n : Int) : Atoi s = (n, none) ↔ specAtoi s = some n := by
  unfold Atoi
  simp only [intSize, len, Nat.reduceEqDiff, false_and, true_and, false_or]
  by_cases hfast : 0 < s.utf8ByteSize ∧ s.utf8ByteSize < 19
  · rw [if_pos hfast]
    cases hd : s.data with
    | nil =>
      rw [specAtoi_nil s hd]
      simp
    | cons c rest =>
      have hlen : (c :: rest).length ≤ 18 := by
        have h1 := length_le_utf8Len s.data
        have h2 : s.utf8ByteSize = String.utf8Len s.data := rfl
        rw [hd] at h1 h2
        omega
      have hlen' : rest.length ≤ 18 := by simp only [List.length_cons] at hlen; omega
      rw [specAtoi_cons s c rest hd]
      by_cases h1 : c = '-'
      · subst h1
        simp only [true_or, decide_True, if_true, true_and]
        rw [specValue_small true rest hlen']
        by_cases hr : rest.length < 1
        · have : rest = [] := List.length_eq_zero.1 (by omega)
          subst this
          simp
        · rw [if_neg hr]
          have := atoiFast_ok_iff true rest hlen' n
          simp only [if_true] at this ⊢
          rw [this]
          have : rest ≠ [] := fun h => hr (by simp [h])
          simp [this]
      · by_cases h2 : c = '+'
        · subst h2
          simp only [or_true, decide_True, if_true, true_and, h1, if_false]
          rw [specValue_small false rest hlen']
          by_cases hr : rest.length < 1
          · have : rest = [] := List.length_eq_zero.1 (by omega)
            subst this
            simp
          · rw [if_neg hr]
            have := atoiFast_ok_iff false rest hlen' n
            simp only [Bool.false_eq_true, if_false] at this ⊢
            rw [this]
            have : rest ≠ [] := fun h => hr (by simp [h])
            simp [this]
        · simp only [h1, h2, or_self, decide_False, Bool.false_eq_true, if_false, false_and]
          rw [specValue_small false (c :: rest) hlen]
          have := atoiFast_ok_iff false (c :: rest) hlen n
          simp only [Bool.false_eq_true, if_false] at this ⊢
          rw [this]
          simp
  · rw [if_neg hfast]
    constructor
    · intro h
      simp only [Prod.mk.injEq] at h
      have hp : ParseInt s 0 = ((ParseInt s 0).1, none) := by rw [← h.2]
      have hs := (ParseInt_ok_iff s 0 (Or.inl rfl) _).1 hp
      have hrange : wrapI64 (ParseInt s 0).1 = (ParseInt s 0).1 := by
        have hr := specAtoi_range s _ hs
        unfold wrapI64; omega
      rw [hs, ← h.1, hrange]
    · intro h
      have hp := (ParseInt_ok_iff s 0 (Or.inl rfl) n).2 h
      rw [hp]
      have hrange : wrapI64 n = n := by
        have hr := specAtoi_range s _ h
        unfold wrapI64; omega
      simp [hrange]

/-! ## Facts about the helpers -/

theorem lookupFirst_absent (key : String) (kvs : List (String × String))
    (h : ∀ kv ∈ kvs, kv.1 ≠ key) : lookupFirst key kvs = "" := by
  induction kvs with
  | nil => rfl
  | cons kv rest ih =>
    have h1 : kv.1 ≠ key := h kv (List.mem_cons_self _ _)
    have h2 : ∀ x ∈ rest, x.1 ≠ key := fun x hx => h x (List.mem_cons_of_mem _ hx)
    simp [lookupFirst, h1, ih h2]

theorem TrimPrefix_append (pre t : String) : TrimPrefix (pre ++ t) pre = t := by
  have hp : HasPrefix (pre ++ t) pre = true := by
    simp [HasPrefix, String.data_append]
  simp [TrimPrefix, hp, String.data_append]

theorem TrimPrefix_eq_iff (auth pre key : String) :
    TrimPrefix auth pre = key ↔
      (auth = pre ++ key ∨ (HasPrefix auth pre = false ∧ auth = key)) := by
  unfold TrimPrefix
  cases hp : HasPrefix auth pre with
  | true =>
    simp only [if_true, Bool.true_eq_false, false_and, or_false]
    have hpre : pre.data <+: auth.data := by
      simpa [HasPrefix] using hp
    obtain ⟨t, ht⟩ := hpre
    have hdrop : List.drop pre.data.length auth.data = t := by
      rw [← ht]; simp
    rw [hdrop]
    constructor
    · intro h
      apply String.ext
      rw [String.data_append, ← ht, ← h]
    · intro h
      apply String.ext
      have : auth.data = pre.data ++ key.data := by rw [h, String.data_append]
      rw [this] at ht
      exact (List.append_cancel_left ht).symm ▸ rfl
  | false =>
    simp only [Bool.false_eq_true, if_false, true_and]
    constructor
    · intro h; exact Or.inr h
    · intro h
      rcases h with h | h
      · exfalso
        have hp2 : HasPrefix (pre ++ key) pre = true := by
          simp [HasPrefix, String.data_append]
        rw [h, hp2] at hp
        cases hp
      · exact h

/-- Exactly which requests `checkBearer` accepts. -/
theorem checkBearer_iff (s : Server) (c : Context) :
    checkBearer s c = true ↔
      (s.adminKey ≠ "" ∧
        (c.HeaderGet "Authorization" = "Bearer " ++ s.adminKey ∨
          (HasPrefix (c.HeaderGet "Authorization") "Bearer " = false ∧
            c.HeaderGet "Authorization" = s.adminKey))) := by
  unfold checkBearer
  by_cases hk : s.adminKey = ""
  · simp [hk]
  · simp only [hk, if_false, decide_eq_true_eq, ne_eq, not_false_eq_true, true_and]
    exact TrimPrefix_eq_iff _ _ _

theorem ioCopy_eq (chunks : List (List Nat)) :
    ∀ dst, ioCopy dst chunks
      = (dst ++ chunks.flatten, List.replicate (chunks.length + 1) Effect.read) := by
  induction chunks with
  | nil => intro dst; simp [ioCopy]
  | cons ch rest ih =>
    intro dst
    simp [ioCopy, ih, List.replicate_succ]

theorem atoi_limit (l : String) :
    (if l ≠ "" then (if (Atoi l).2 = none ∧ (Atoi l).1 > 0 then (Atoi l).1 else 50) else 50)
      = specLimit l := by
  unfold specLimit
  by_cases hl : l ≠ ""
  · rw [if_pos hl, if_pos hl]
    cases hs : specAtoi l with
    | none =>
      have hne : ¬ ((Atoi l).2 = none ∧ (Atoi l).1 > 0) := by
        intro h
        have heq : Atoi l = ((Atoi l).1, none) := by rw [← h.1]
        have h1 := (Atoi_ok_iff l _).1 heq
        rw [hs] at h1
        cases h1
      rw [if_neg hne]
    | some n =>
      have ha := (Atoi_ok_iff l n).2 hs
      rw [ha]
      simp
  · rw [if_neg hl, if_neg hl]

theorem specLimit_pos (l : String) : 0 < specLimit l := by
  unfold specLimit
  split
  · split
    · split
      · assumption
      · decide
    · decide
  · decide

/-! ## The claims -/

/-- C1: whatever the `limit` query parameter is, `handleListEvents` calls the
manager's `ListEvents` exactly once, with a positive limit `L`: the value `n`
of the parameter when it is a non-empty decimal numeral (optional sign, in
the range of `int`) with `n > 0`, that is, when `Atoi` succeeds on it with
such an `n`, and 50 otherwise.  The response is the manager's result (200
with the events, or 500 with the manager's error), never a rejection of the
parameter. -/
theorem handleListEvents_limit (s : Server) (c : Context) :
    0 < specLimit (c.QueryParam "limit") ∧
    (handleListEvents s c).trace =
      [Effect.mgr (MgrCall.ListEvents (specLimit (c.QueryParam "limit")))
        (errOf (s.mgr.ListEvents (specLimit (c.QueryParam "limit"))))] ∧
    (handleListEvents s c).response =
      (match s.mgr.ListEvents (specLimit (c.QueryParam "limit")) with
        | Except.error err => JSON StatusInternalServerError (errorMap err.Error)
        | Except.ok events => JSON StatusOK (Payload.events (events.getD []))) ∧
    (∀ n : Int, c.QueryParam "limit" ≠ "" → Atoi (c.QueryParam "limit") = (n, none) → 0 < n →
      specLimit (c.QueryParam "limit") = n) ∧
    ((∀ n : Int, ¬ (c.QueryParam "limit" ≠ "" ∧ Atoi (c.QueryParam "limit") = (n, none) ∧ 0 < n)) →
      specLimit (c.QueryParam "limit") = 50) := by
  refine ⟨specLimit_pos _, ?_, ?_, ?_, ?_⟩
  · unfold handleListEvents
    simp only [atoi_limit]
    cases s.mgr.ListEvents (specLimit (c.QueryParam "limit")) <;> rfl
  · unfold handleListEvents
    simp only [atoi_limit]
    cases h : s.mgr.ListEvents (specLimit (c.QueryParam "limit")) with
    | error err => rfl
    | ok events => cases events <;> rfl
  · intro n hne ha hn
    rw [← atoi_limit, if_pos hne, ha]
    simp [hn]
  · intro hno
    rw [← atoi_limit]
    by_cases hne : c.QueryParam "limit" ≠ ""
    · rw [if_pos hne]
      by_cases hc : (Atoi (c.QueryParam "limit")).2 = none ∧ (Atoi (c.QueryParam "limit")).1 > 0
      · exfalso
        refine hno (Atoi (c.QueryParam "limit")).1 ⟨hne, ?_, hc.2⟩
        rw [← hc.1]
      · rw [if_neg hc]
    · rw [if_neg hne]

/-- C2: when the id parses and the manager's `NodeLogs` succeeds with a finite
stream, `handleNodeLogs` answers 200 with a body that is exactly the bytes of
the stream, in order, and closes the stream last, after reading it to EOF. -/
theorem handleNodeLogs_stream (s : Server) (c : Context) (id : Int) (reader : ReadCloser)
    (hid : ParseInt (c.Param "id") 64 = (id, none))
    (hlogs : s.mgr.NodeLogs id (c.QueryParam "tail") = Except.ok reader) :
    (handleNodeLogs s c).response.status = 200 ∧
    (handleNodeLogs s c).response.body = Body.bytes reader.bytes ∧
    (handleNodeLogs s c).trace =
      [Effect.mgr (MgrCall.NodeLogs id (c.QueryParam "tail")) none]
        ++ List.replicate (reader.chunks.length + 1) Effect.read ++ [Effect.close] := by
  unfold handleNodeLogs
  simp only [hid, hlogs, ioCopy_eq, ne_eq, not_true_eq_false, if_false, List.nil_append,
    ReadCloser.bytes, StatusOK, and_self]

theorem handleNodeLogs_stream_witness :
    ParseInt ((exampleContext "Bearer secret" "7" [("tail", "100")]).Param "id") 64 = (7, none) ∧
    (exampleServer "secret" exampleManager).mgr.NodeLogs 7
        ((exampleContext "Bearer secret" "7" [("tail", "100")]).QueryParam "tail")
      = Except.ok { chunks := [[104, 105], [], [10]] } ∧
    (handleNodeLogs (exampleServer "secret" exampleManager)
        (exampleContext "Bearer secret" "7" [("tail", "100")])).response.body
      = Body.bytes [104, 105, 10] :=
  ⟨by decide, rfl,
    (handleNodeLogs_stream (exampleServer "secret" exampleManager)
      (exampleContext "Bearer secret" "7" [("tail", "100")]) 7
      { chunks := [[104, 105], [], [10]] } (by decide) rfl).2.1⟩

/-- C3: `newFilterArgs key value` holds exactly one field, `label`, with
exactly one entry, `key ++ "=" ++ value`, and nothing else. -/
theorem newFilterArgs_label (key value : String) :
    (newFilterArgs key value).fields = [("label", [key ++ "=" ++ value])] ∧
    ∀ f e : String,
      (newFilterArgs key value).has f e = true ↔ (f = "label" ∧ e = key ++ "=" ++ value) := by
  constructor
  · rfl
  · intro f e
    have hf : (newFilterArgs key value).fields = [("label", [key ++ "=" ++ value])] := rfl
    unfold Args.has
    rw [hf]
    simp only [List.any_cons, List.any_nil, Bool.or_false, Bool.and_eq_true,
      decide_eq_true_eq, List.mem_singleton]
    constructor
    · rintro ⟨h1, h2⟩; exact ⟨h1.symm, h2⟩
    · rintro ⟨h1, h2⟩; exact ⟨h1.symm, h2⟩

theorem mgrFailures_reads (n : Nat) (x : MgrCall × GoError) :
    x ∉ mgrFailures (List.replicate n Effect.read ++ [Effect.close]) := by
  induction n with
  | zero => simp [mgrFailures]
  | succ k ih => simpa [List.replicate_succ, mgrFailures] using ih

theorem queriesOf_append_mgr (t : List Effect) (call : MgrCall) (err : Option GoError) :
    queriesOf (t ++ [Effect.mgr call err]) = queriesOf t := by
  induction t with
  | nil => rfl
  | cons e rest ih =>
    cases e <;> simp [queriesOf, ih]

theorem handleStatus_queriesOf (s : Server) (c : Context) :
    queriesOf (handleStatus s c).trace
      = queriesOf (countTables s.db ["hosts", "nodes", "l1s", "events"] [] [] []).2 := by
  unfold handleStatus
  simp only []
  generalize countTables s.db ["hosts", "nodes", "l1s", "events"] [] [] [] = res
  rcases res with ⟨r, tr⟩
  cases r with
  | error err => rfl
  | ok counts =>
    simp only
    cases checkBearer s c with
    | false => rfl
    | true =>
      simp only [if_true]
      cases s.mgr.ListNodes with
      | error e => exact queriesOf_append_mgr _ _ _
      | ok nodes => exact queriesOf_append_mgr _ _ _

theorem countTables_status (db : DB) :
    (queriesOf (countTables db ["hosts", "nodes", "l1s", "events"] [] [] []).2).map Prod.fst
        <+: statusQueries ∧
    (∀ q ∈ (queriesOf (countTables db ["hosts", "nodes", "l1s", "events"] [] [] []).2).dropLast,
        q.2 = none) ∧
    ((queriesOf (countTables db ["hosts", "nodes", "l1s", "events"] [] [] []).2).length
        < statusQueries.length →
      ∃ sql err, (queriesOf (countTables db ["hosts", "nodes", "l1s", "events"] [] [] []).2).getLast?
        = some (sql, some err)) := by
  have e1 : "SELECT count(*) FROM " ++ "hosts" = "SELECT count(*) FROM hosts" := by decide
  have e2 : "SELECT count(*) FROM " ++ "nodes" = "SELECT count(*) FROM nodes" := by decide
  have e3 : "SELECT count(*) FROM " ++ "l1s" = "SELECT count(*) FROM l1s" := by decide
  have e4 : "SELECT count(*) FROM " ++ "events" = "SELECT count(*) FROM events" := by decide
  simp only [countTables, e1, e2, e3, e4, List.nil_append, List.cons_append]
  cases db.QueryRow [] "SELECT count(*) FROM hosts" with
  | error err => simp [queriesOf, statusQueries]
  | ok n1 =>
    simp only
    cases db.QueryRow ["SELECT count(*) FROM hosts"] "SELECT count(*) FROM nodes" with
    | error err => simp [queriesOf, statusQueries]
    | ok n2 =>
      simp only
      cases db.QueryRow ["SELECT count(*) FROM hosts", "SELECT count(*) FROM nodes"]
          "SELECT count(*) FROM l1s" with
      | error err => simp [queriesOf, statusQueries]
      | ok n3 =>
        simp only
        cases db.QueryRow ["SELECT count(*) FROM hosts", "SELECT count(*) FROM nodes",
            "SELECT count(*) FROM l1s"] "SELECT count(*) FROM events" with
        | error err => simp [queriesOf, statusQueries]
        | ok n4 => simp [queriesOf, statusQueries]

/-- C6: the statements `handleStatus` sends to the database do not depend on
the request: for any two requests they are the same, a prefix of the fixed
list `SELECT count(*) FROM hosts / nodes / l1s / events` in that order; every
statement but the last one sent succeeded, and when fewer than four were sent
the last one failed. -/
theorem handleStatus_queries_fixed (s : Server) (c₁ c₂ : Context) :
    queriesOf (handleStatus s c₁).trace = queriesOf (handleStatus s c₂).trace ∧
    (queriesOf (handleStatus s c₁).trace).map Prod.fst <+:
      ["SELECT count(*) FROM hosts", "SELECT count(*) FROM nodes",
       "SELECT count(*) FROM l1s", "SELECT count(*) FROM events"] ∧
    (∀ q ∈ (queriesOf (handleStatus s c₁).trace).dropLast, q.2 = none) ∧
    ((queriesOf (handleStatus s c₁).trace).length < 4 →
      ∃ sql err, (queriesOf (handleStatus s c₁).trace).getLast? = some (sql, some err)) := by
  rw [handleStatus_queriesOf s c₁, handleStatus_queriesOf s c₂]
  exact ⟨rfl, countTables_status s.db⟩

/-- C7: on an authenticated delete request whose id parses, the manager's
`DeleteNode` is called once, and its `removeVolumes` argument is true exactly
when the `remove_volumes` query parameter is the string `true`; it is false
for `""`, `True`, `TRUE`, `1`, `yes`, ` true` and when the parameter is
absent. -/
theorem handleDeleteNode_removeVolumes (s : Server) (c : Context) (id : Int)
    (hauth : checkBearer s c = true)
    (hid : ParseInt (c.Param "id") 64 = (id, none)) :
    ∃ rv : Bool,
      mgrCalls (serveApi s ApiRoute.deleteNode c).trace = [MgrCall.DeleteNode id rv] ∧
      (rv = true ↔ c.QueryParam "remove_volumes" = "true") ∧
      (c.QueryParam "remove_volumes" ∈ ["", "True", "TRUE", "1", "yes", " true"] →
        rv = false) ∧
      ((∀ kv ∈ c.query, kv.1 ≠ "remove_volumes") → rv = false) := by
  refine ⟨decide (c.QueryParam "remove_volumes" = "true"), ?_, ?_, ?_, ?_⟩
  · unfold serveApi requireBearer ApiRoute.handler handleDeleteNode
    simp only [hauth, hid, Bool.not_true, Bool.false_eq_true, if_false, ne_eq,
      not_true_eq_false]
    cases s.mgr.DeleteNode id (decide (c.QueryParam "remove_volumes" = "true")) <;> rfl
  · simp
  · intro h
    rw [decide_eq_false_iff_not]
    intro heq
    rw [heq] at h
    revert h
    decide
  · intro h
    have := lookupFirst_absent "remove_volumes" c.query h
    rw [decide_eq_false_iff_not]
    unfold Context.QueryParam
    rw [this]
    decide

theorem handleDeleteNode_removeVolumes_witness :
    checkBearer (exampleServer "secret" exampleManager)
        (exampleContext "Bearer secret" "7" [("remove_volumes", "True")]) = true ∧
    ParseInt ((exampleContext "Bearer secret" "7" [("remove_volumes", "True")]).Param "id") 64
      = (7, none) ∧
    ∃ rv : Bool,
      mgrCalls (serveApi (exampleServer "secret" exampleManager) ApiRoute.deleteNode
          (exampleContext "Bearer secret" "7" [("remove_volumes", "True")])).trace
        = [MgrCall.DeleteNode 7 rv] ∧ rv = false :=
  ⟨by decide, by decide,
    (handleDeleteNode_removeVolumes (exampleServer "secret" exampleManager)
      (exampleContext "Bearer secret" "7" [("remove_volumes", "True")]) 7
      (by decide) (by decide)).imp
      (fun _ h => ⟨h.1, h.2.2.1 (by decide)⟩)⟩

/-- C8: with an empty admin key `checkBearer` rejects every request,
including one whose header is absent, empty or exactly `Bearer `, and every
route of the `/api` group answers 401 `unauthorized` without reaching its
handler. -/
theorem checkBearer_empty_key (s : Server) (c : Context) (hkey : s.adminKey = "") :
    checkBearer s c = false ∧
    ∀ r : ApiRoute,
      serveApi s r c =
        { response := JSON 401 (errorMap "unauthorized"), trace := [] } := by
  have h : checkBearer s c = false := by simp [checkBearer, hkey]
  refine ⟨h, fun r => ?_⟩
  simp [serveApi, requireBearer, h, StatusUnauthorized, errorMap]

theorem checkBearer_empty_key_witness :
    (exampleServer "" exampleManager).adminKey = "" ∧
    TrimPrefix ((exampleContext "Bearer " "7" []).HeaderGet "Authorization") "Bearer " = "" ∧
    checkBearer (exampleServer "" exampleManager) (exampleContext "Bearer " "7" []) = false ∧
    (serveApi (exampleServer "" exampleManager) ApiRoute.listNodes
        (exampleContext "Bearer " "7" [])).response.status = 401 :=
  ⟨rfl, by decide,
    (checkBearer_empty_key (exampleServer "" exampleManager)
      (exampleContext "Bearer " "7" []) rfl).1,
    by rw [(checkBearer_empty_key (exampleServer "" exampleManager)
      (exampleContext "Bearer " "7" []) rfl).2 ApiRoute.listNodes]; rfl⟩

/-- C4 (as stated, refuted): `GetNode` fails with the detail string
`store: connection refused`, and the body `handleGetNode` sends is
`{"error": "node not found"}`, not `{"error": "store: connection refused"}`. -/
theorem handleGetNode_hides_detail :
    (MgrCall.GetNode 7, ({ Error := "store: connection refused" } : GoError)) ∈
      mgrFailures (handleGetNode (exampleServer "secret" (brokenManager "store: connection refused"))
        (exampleContext "Bearer secret" "7" [])).trace ∧
    (handleGetNode (exampleServer "secret" (brokenManager "store: connection refused"))
        (exampleContext "Bearer secret" "7" [])).response
      = JSON 404 (errorMap "node not found") ∧
    (handleGetNode (exampleServer "secret" (brokenManager "store: connection refused"))
        (exampleContext "Bearer secret" "7" [])).response.body
      ≠ Body.json (errorMap "store: connection refused") := by
  decide

/-- C4 (amended): for each handler of the `/api` group and every failure `e`
its manager operation returns, the response is an error response with a JSON
body `{"error": d}`: for `handleGetNode` it is 404 with the fixed
`d = "node not found"`; for every other handler `d` is the detail string of
`e`, with status 500 for `handleListNodes` and `handleListEvents` and 400
for `handleCreateNode`, `handleStartNode`, `handleStopNode`,
`handleDeleteNode` and `handleNodeLogs`. -/
theorem manager_failure_reported (s : Server) (r : ApiRoute) (c : Context)
    (call : MgrCall) (e : GoError)
    (hfail : (call, e) ∈ mgrFailures (r.handler s c).trace) :
    (r.handler s c).response =
      (match r with
        | ApiRoute.getNode => JSON 404 (errorMap "node not found")
        | ApiRoute.listNodes => JSON 500 (errorMap e.Error)
        | ApiRoute.listEvents => JSON 500 (errorMap e.Error)
        | _ => JSON 400 (errorMap e.Error)) ∧
    ¬ (200 ≤ (r.handler s c).response.status ∧ (r.handler s c).response.status < 300) := by
  cases r with
  | createNode =>
    simp only [ApiRoute.handler, handleCreateNode] at hfail ⊢
    cases hb : c.bind with
    | error be => rw [hb] at hfail; simp [mgrFailures] at hfail
    | ok req =>
      rw [hb] at hfail
      simp only at hfail ⊢
      cases hm : s.mgr.CreateNode req with
      | error err =>
        rw [hm] at hfail
        simp only [mgrFailures, List.mem_singleton, Prod.mk.injEq] at hfail
        rw [hfail.2]
        simp [JSON, StatusBadRequest]
      | ok node => rw [hm] at hfail; simp [mgrFailures] at hfail
  | listNodes =>
    simp only [ApiRoute.handler, handleListNodes] at hfail ⊢
    cases hm : s.mgr.ListNodes with
    | error err =>
      rw [hm] at hfail
      simp only [mgrFailures, List.mem_singleton, Prod.mk.injEq] at hfail
      rw [hfail.2]
      simp [JSON, StatusInternalServerError]
    | ok nodes => rw [hm] at hfail; simp [mgrFailures] at hfail
  | getNode =>
    simp only [ApiRoute.handler, handleGetNode] at hfail ⊢
    by_cases hp : (ParseInt (c.Param "id") 64).2 ≠ none
    · rw [if_pos hp] at hfail; simp [mgrFailures] at hfail
    · rw [if_neg hp] at hfail ⊢
      cases hm : s.mgr.GetNode (ParseInt (c.Param "id") 64).1 with
      | error err => simp [JSON, StatusNotFound]
      | ok node => rw [hm] at hfail; simp [mgrFailures] at hfail
  | startNode =>
    simp only [ApiRoute.handler, handleStartNode] at hfail ⊢
    by_cases hp : (ParseInt (c.Param "id") 64).2 ≠ none
    · rw [if_pos hp] at hfail; simp [mgrFailures] at hfail
    · rw [if_neg hp] at hfail ⊢
      cases hm : s.mgr.StartNode (ParseInt (c.Param "id") 64).1 with
      | some err =>
        rw [hm] at hfail
        simp only [mgrFailures, List.mem_singleton, Prod.mk.injEq] at hfail
        rw [hfail.2]
        simp [JSON, StatusBadRequest]
      | none => rw [hm] at hfail; simp [mgrFailures] at hfail
  | stopNode =>
    simp only [ApiRoute.handler, handleStopNode] at hfail ⊢
    by_cases hp : (ParseInt (c.Param "id") 64).2 ≠ none
    · rw [if_pos hp] at hfail; simp [mgrFailures] at hfail
    · rw [if_neg hp] at hfail ⊢
      cases hm : s.mgr.StopNode (ParseInt (c.Param "id") 64).1 with
      | some err =>
        rw [hm] at hfail
        simp only [mgrFailures, List.mem_singleton, Prod.mk.injEq] at hfail
        rw [hfail.2]
        simp [JSON, StatusBadRequest]
      | none => rw [hm] at hfail; simp [mgrFailures] at hfail
  | deleteNode =>
    simp only [ApiRoute.handler, handleDeleteNode] at hfail ⊢
    by_cases hp : (ParseInt (c.Param "id") 64).2 ≠ none
    · rw [if_pos hp] at hfail; simp [mgrFailures] at hfail
    · rw [if_neg hp] at hfail ⊢
      cases hm : s.mgr.DeleteNode (ParseInt (c.Param "id") 64).1
          (decide (c.QueryParam "remove_volumes" = "true")) with
      | some err =>
        rw [hm] at hfail
        simp only [mgrFailures, List.mem_singleton, Prod.mk.injEq] at hfail
        rw [hfail.2]
        simp [JSON, StatusBadRequest]
      | none => rw [hm] at hfail; simp [mgrFailures] at hfail
  | nodeLogs =>
    simp only [ApiRoute.handler, handleNodeLogs] at hfail ⊢
    by_cases hp : (ParseInt (c.Param "id") 64).2 ≠ none
    · rw [if_pos hp] at hfail; simp [mgrFailures] at hfail
    · rw [if_neg hp] at hfail ⊢
      cases hm : s.mgr.NodeLogs (ParseInt (c.Param "id") 64).1 (c.QueryParam "tail") with
      | error err =>
        rw [hm] at hfail
        simp only [mgrFailures, List.mem_singleton, Prod.mk.injEq] at hfail
        rw [hfail.2]
        simp [JSON, StatusBadRequest]
      | ok reader =>
        rw [hm] at hfail
        simp only [ioCopy_eq, List.nil_append, List.singleton_append, List.cons_append,
          mgrFailures] at hfail
        exfalso
        exact mgrFailures_reads _ _ hfail
  | listEvents =>
    simp only [ApiRoute.handler, handleListEvents, atoi_limit] at hfail ⊢
    cases hm : s.mgr.ListEvents (specLimit (c.QueryParam "limit")) with
    | error err =>
      rw [hm] at hfail
      simp only [mgrFailures, List.mem_singleton, Prod.mk.injEq] at hfail
      rw [hfail.2]
      simp [JSON, StatusInternalServerError]
    | ok events => rw [hm] at hfail; simp [mgrFailures] at hfail

theorem manager_failure_reported_witness :
    (MgrCall.StartNode 7, ({ Error := "invalid transition: node is running" } : GoError)) ∈
      mgrFailures (ApiRoute.startNode.handler
        (exampleServer "secret" (brokenManager "invalid transition: node is running"))
        (exampleContext "Bearer secret" "7" [])).trace ∧
    (ApiRoute.startNode.handler
        (exampleServer "secret" (brokenManager "invalid transition: node is running"))
        (exampleContext "Bearer secret" "7" [])).response
      = JSON 400 (errorMap "invalid transition: node is running") :=
  ⟨by decide,
    (manager_failure_reported
      (exampleServer "secret" (brokenManager "invalid transition: node is running"))
      ApiRoute.startNode (exampleContext "Bearer secret" "7" [])
      (MgrCall.StartNode 7) { Error := "invalid transition: node is running" }
      (by decide)).1⟩

/-- C5 (evaluation at the failing input): with admin key `secret`, a request
whose `Authorization` header is the bare string `secret`, which is not
`Bearer secret`, passes `checkBearer`; every route of the `/api` group runs
its handler, and `GET /api/nodes` reaches the manager and answers 200. -/
theorem serveApi_accepts_bare_key :
    (exampleContext "secret" "7" []).HeaderGet "Authorization"
      ≠ "Bearer " ++ (exampleServer "secret" exampleManager).adminKey ∧
    checkBearer (exampleServer "secret" exampleManager) (exampleContext "secret" "7" []) = true ∧
    (∀ r : ApiRoute,
      serveApi (exampleServer "secret" exampleManager) r (exampleContext "secret" "7" [])
        = r.handler (exampleServer "secret" exampleManager) (exampleContext "secret" "7" [])) ∧
    serveApi (exampleServer "secret" exampleManager) ApiRoute.listNodes
        (exampleContext "secret" "7" [])
      = { response := JSON 200 (Payload.nodes []),
          trace := [Effect.mgr MgrCall.ListNodes none] } := by
  refine ⟨by decide, by decide, ?_, by decide⟩
  intro r
  have h : checkBearer (exampleServer "secret" exampleManager)
      (exampleContext "secret" "7" []) = true := by decide
  simp [serveApi, requireBearer, h]

/-! ## Worked instances -/

theorem Atoi_examples :
    Atoi "25" = (25, none) ∧ Atoi "+25" = (25, none) ∧ Atoi "-25" = (-25, none) ∧
    Atoi "" = (0, some NumErr.ErrSyntax) ∧ Atoi "abc" = (0, some NumErr.ErrSyntax) ∧
    Atoi "1_000" = (0, some NumErr.ErrSyntax) ∧ Atoi " 5" = (0, some NumErr.ErrSyntax) ∧
    Atoi "9223372036854775807" = (9223372036854775807, none) ∧
    Atoi "9223372036854775808" = (9223372036854775807, some NumErr.ErrRange) ∧
    Atoi "-9223372036854775808" = (-9223372036854775808, none) ∧
    Atoi "-9223372036854775809" = (-9223372036854775808, some NumErr.ErrRange) := by
  decide

theorem specLimit_examples :
    specLimit "" = 50 ∧ specLimit "abc" = 50 ∧ specLimit "0" = 50 ∧ specLimit "-3" = 50 ∧
    specLimit "99999999999999999999" = 50 ∧ specLimit "25" = 25 ∧ specLimit "+7" = 7 := by
  decide

theorem handleListEvents_examples :
    (handleListEvents (exampleServer "secret" exampleManager)
        (exampleContext "Bearer secret" "" [("limit", "25")])).trace
      = [Effect.mgr (MgrCall.ListEvents 25) none] ∧
    (handleListEvents (exampleServer "secret" exampleManager)
        (exampleContext "Bearer secret" "" [("limit", "-1")])).trace
      = [Effect.mgr (MgrCall.ListEvents 50) none] ∧
    (handleListEvents (exampleServer "secret" exampleManager)
        (exampleContext "Bearer secret" "" [])).trace
      = [Effect.mgr (MgrCall.ListEvents 50) none] := by
  decide

/-- The unauthenticated status route is outside the `/api` group: a failure of
`ListNodes` there is dropped and the answer is still 200. -/
theorem handleStatus_drops_ListNodes_failure :
    (handleStatus (exampleServer "secret" (brokenManager "store: connection refused"))
        (exampleContext "Bearer secret" "" [])).response
      = JSON 200 (Payload.status "dev"
          [("hosts", 0), ("nodes", 0), ("l1s", 0), ("events", 0)] true none) := by
  decide

end Avalauncher
